import Mathlib

/-!
Shallow embedding of the panorama-stitching pipeline of the PanoramaCreator
component (pairwise stitching of overlapping photographs: feature matching,
homography estimation, canvas compositing, feathering blend, crop, and the
sequential driver). Image coordinates are rationals, pixel buffers are
accessor functions, and the per-stage results that the surrounding driver can
observe are modelled with Except over the error taxonomy of the design.
-/

namespace Stitch

/-- Error taxonomy of the stitching pipeline (design section 7). -/
inductive StitchError where
  | TooFewImages
  | InsufficientFeatures
  | InsufficientMatches
  | DegenerateHomography
  | DegenerateCanvas
  deriving DecidableEq

/-- A 2D point with rational (sub-pixel) coordinates. -/
structure Pt where
  x : ℚ
  y : ℚ
  deriving DecidableEq

/-- The four transformed corners of the moving image, in the order the code
builds them from `[[0,0],[0,h],[w,h],[w,0]]`: `c0` top-left, `c1` bottom-left,
`c2` bottom-right, `c3` top-right. -/
structure Corners where
  c0 : Pt
  c1 : Pt
  c2 : Pt
  c3 : Pt
  deriving DecidableEq

/-- Minimum of the corner x coordinates (`Math.min(...corners.map(c => c[0]))`). -/
def minX4 (c : Corners) : ℚ :=
  min (min c.c0.x c.c1.x) (min c.c2.x c.c3.x)

/-- Minimum of the corner y coordinates. -/
def minY4 (c : Corners) : ℚ :=
  min (min c.c0.y c.c1.y) (min c.c2.y c.c3.y)

/-- Maximum of the corner y coordinates. -/
def maxY4 (c : Corners) : ℚ :=
  max (max c.c0.y c.c1.y) (max c.c2.y c.c3.y)

/-- Raster image: dimensions plus a pixel accessor, mirroring the cv.Mat
values the pipeline passes around (`pano.cols`, `pano.rows`, `roi`). -/
@[ext]
structure Img where
  cols : ℤ
  rows : ℤ
  pix : ℤ → ℤ → ℕ

/-- The crop rectangle in panorama coordinates. -/
structure CropWindow where
  xStart : ℤ
  xEnd : ℤ
  yStart : ℤ
  yEnd : ℤ
  deriving DecidableEq

/-- Crop-window computation of `cropPanorama` (PanoramaCreator lines 120-147):
floors of the corner minima, vertical window `[t_y, t_y + h_dst]`, horizontal
window chosen by the side classification on the transformed top-left corner,
an extra raise of the left boundary when `min_x` is negative, and final
clamping to the panorama bounds. `Math.floor(-min_x)` is written `-min_x`
because `min_x` is already an integer. -/
def cropWindow (cols rows h_dst : ℤ) (c : Corners) : CropWindow :=
  let min_x : ℤ := ⌊minX4 c⌋
  let min_y : ℤ := ⌊minY4 c⌋
  let t_y : ℤ := -min_y
  let xs0 : ℤ := if c.c0.x < 0 then max 0 ⌊|c.c1.x - c.c0.x|⌋ else 0
  let xe0 : ℤ := if c.c0.x < 0 then cols else min cols ⌈min c.c2.x c.c3.x⌉
  let xs1 : ℤ := if min_x < 0 then max xs0 (-min_x) else xs0
  { xStart := max 0 xs1
    xEnd := min cols xe0
    yStart := max 0 t_y
    yEnd := min rows (min (t_y + h_dst) rows) }

/-- Crop stage (PanoramaCreator lines 120-162): computes the window, returns
the panorama unchanged when the window width or height is non-positive,
otherwise the extracted sub-image (roi followed by clone). -/
def cropPanorama (pano : Img) (h_dst : ℤ) (c : Corners) : Img :=
  let w := cropWindow pano.cols pano.rows h_dst c
  if w.xEnd - w.xStart ≤ 0 ∨ w.yEnd - w.yStart ≤ 0 then pano
  else
    { cols := w.xEnd - w.xStart
      rows := w.yEnd - w.yStart
      pix := fun x y => pano.pix (x + w.xStart) (y + w.yStart) }

/-- Canvas geometry of one pairwise composite. -/
structure CompositeGeom where
  widthPano : ℤ
  heightPano : ℤ
  dstX : ℤ
  dstY : ℤ
  deriving DecidableEq

/-- Canvas geometry computation (PanoramaCreator lines 274-296 and 323-324):
bounding values over the union of the transformed moving corners and the
fixed-image corners `[[0,0],[0,h_dst],[w_dst,h_dst],[w_dst,0]]`, side
classification on the transformed top-left corner, per-side canvas width,
and the placement offset of the fixed image. -/
def compositeGeometry (w_dst h_dst : ℤ) (c : Corners) : CompositeGeom :=
  let min_x : ℚ := min (minX4 c) (min 0 (w_dst : ℚ))
  let min_y : ℚ := min (minY4 c) (min 0 (h_dst : ℚ))
  let max_y : ℚ := max (maxY4 c) (max 0 (h_dst : ℚ))
  let t_x : ℚ := -min_x
  let t_y : ℚ := -min_y
  { widthPano := if c.c0.x < 0 then ⌈(w_dst : ℚ) + t_x⌉ else ⌈c.c3.x⌉
    heightPano := ⌈max_y - min_y⌉
    dstX := if c.c0.x < 0 then round t_x else 0
    dstY := round t_y }

/-- Result of the compositor stage as the driver observes it. The source
computes the geometry and allocates the canvases unconditionally: no check of
the computed dimensions exists, so this stage has no failure path. -/
def compositeStep (w_dst h_dst : ℤ) (c : Corners) : Except StitchError CompositeGeom :=
  Except.ok (compositeGeometry w_dst h_dst c)

/-- A descriptor match as the matcher returns it (query index, train index
and the descriptor distance). -/
structure DMatch where
  queryIdx : ℕ
  trainIdx : ℕ
  distance : ℚ
  deriving DecidableEq

/-- The ratio-test loop (PanoramaCreator lines 200-210): for every k-nearest
group with at least two candidates, keep the first candidate exactly when its
distance is below 0.75 times the distance of the second. -/
def goodMatches : List (List DMatch) → List DMatch
  | [] => []
  | (m :: n :: _) :: rest =>
      if m.distance < 3 / 4 * n.distance then m :: goodMatches rest
      else goodMatches rest
  | _ :: rest => goodMatches rest

/-- The match stage as the driver observes it (PanoramaCreator lines
196-216): the run is aborted when fewer than 4 matches survive the ratio
test, otherwise the surviving matches flow on to the homography fit. -/
def matchStage (pairs : List (List DMatch)) : Except StitchError (List DMatch) :=
  if (goodMatches pairs).length < 4 then Except.error StitchError.InsufficientMatches
  else Except.ok (goodMatches pairs)

/-- Statement of the ratio rule in the words of the specification: among the
two nearest candidates of a query, the best match survives exactly when
`distance(best) < 0.75 * distance(second best)`. -/
def ratioSurvivors (pairs : List (List DMatch)) : List DMatch :=
  pairs.filterMap fun pair =>
    match pair with
    | best :: second :: _ =>
        if best.distance < 3 / 4 * second.distance then some best else none
    | _ => none

/-- A 3x3 rational matrix (the homography). -/
abbrev Matrix3 := Fin 3 → Fin 3 → ℚ

/-- Determinant of a 3x3 matrix, written out, to state singularity. -/
def det3 (M : Matrix3) : ℚ :=
  M 0 0 * (M 1 1 * M 2 2 - M 1 2 * M 2 1) -
    M 0 1 * (M 1 0 * M 2 2 - M 1 2 * M 2 0) +
    M 0 2 * (M 1 0 * M 2 1 - M 1 1 * M 2 0)

/-- Inlier count of the RANSAC mask (PanoramaCreator lines 244-247): the
number of mask entries strictly above zero. -/
def inlierCount (mask : List ℕ) : ℕ :=
  (mask.filter fun v => 0 < v).length

/-- The homography stage as the driver observes it (PanoramaCreator lines
240-248): the matrix returned by the external solver is taken as is, the
inlier count is computed for the log line, and control always continues to
the corner transform. No degeneracy check of any kind exists in this stage. -/
def estimateHomographyStep (M : Matrix3) (mask : List ℕ) :
    Except StitchError (Matrix3 × ℕ) :=
  Except.ok (M, inlierCount mask)

/-- Per-pixel blend rule (PanoramaCreator lines 397-434). Inputs: the three
eroded-mask bits at the pixel, the alpha byte of the warped moving pixel, the
two blurred distance-field values, and the two colour triples; the output is
the value written into the panorama byte for channel `ch` (stores into the
uint8 buffer are taken modulo 256). -/
def blendPixel (inOverlap hasDst hasSrc : Bool) (srcAlpha : ℕ)
    (dDst dSrc : ℚ) (dstPix srcPix : Fin 3 → ℕ) (ch : Fin 3) : ℤ :=
  if inOverlap then
    let total := dDst + dSrc
    if total > 1 / 100 then
      round ((dstPix ch : ℚ) * (dDst / total) + (srcPix ch : ℚ) * (dSrc / total)) % 256
    else
      round (((dstPix ch : ℚ) + (srcPix ch : ℚ)) / 2) % 256
  else if hasDst then (dstPix ch : ℤ) % 256
  else if hasSrc ∧ 10 < srcAlpha then (srcPix ch : ℤ) % 256
  else 0

/-- Overlap rule in the words of the claim: the per-channel round of the
distance-weighted average, except that an equal 50/50 average is used when
`dDst + dSrc < 0.01`. -/
def blendOverlapClaim (dDst dSrc : ℚ) (dstPix srcPix : Fin 3 → ℕ) (ch : Fin 3) : ℤ :=
  if dDst + dSrc < 1 / 100 then
    round (((dstPix ch : ℚ) + (srcPix ch : ℚ)) / 2)
  else
    round ((dstPix ch : ℚ) * (dDst / (dDst + dSrc)) +
      (srcPix ch : ℚ) * (dSrc / (dDst + dSrc)))

/-- Sequential stitch driver (PanoramaCreator lines 469-518): refuse fewer
than two images before any processing, otherwise seed the accumulator with a
copy of the first image and fold the pairwise stitch over the rest; any error
of a pairwise stitch aborts the whole run. -/
def stitchAll (stitchPair : Img → Img → Except StitchError Img)
    (imgs : List Img) : Except StitchError Img :=
  if imgs.length < 2 then Except.error StitchError.TooFewImages
  else
    match imgs with
    | [] => Except.error StitchError.TooFewImages
    | first :: rest => rest.foldlM stitchPair first

/-! Concrete inputs used by witnesses and counterexamples. -/

/-- A corner set whose matrix context is degenerate: used against claim C1. -/
def zeroMatrix : Matrix3 := fun _ _ => 0

/-- Corner set driving the canvas width non-positive: right-extension
classification with a top-right corner at negative x. -/
def cornersC3 : Corners := { c0 := ⟨5, 0⟩, c1 := ⟨5, 10⟩, c2 := ⟨-5, 10⟩, c3 := ⟨-5, 0⟩ }

/-- Corner set producing a non-positive crop window. -/
def cornersC8 : Corners := { c0 := ⟨5, 0⟩, c1 := ⟨5, 10⟩, c2 := ⟨-30, 10⟩, c3 := ⟨-30, 0⟩ }

/-- A small panorama input for the crop fallback witness. -/
def imgC8 : Img := { cols := 40, rows := 10, pix := fun _ _ => 1 }

/-- C1 counterexample: with a singular (all-zero) solver matrix and an
all-zero inlier mask — zero inliers, far below the design floor of 4 — the
homography stage of the code still succeeds instead of aborting with
`DegenerateHomography`, refuting the claim at this input. -/
theorem homography_stage_counterexample :
    inlierCount [0, 0, 0, 0] < 4 ∧ det3 zeroMatrix = 0 ∧
    estimateHomographyStep zeroMatrix [0, 0, 0, 0] ≠
      Except.error StitchError.DegenerateHomography :=
  ⟨by decide, by norm_num [det3, zeroMatrix], fun h => Except.noConfusion h⟩

/-- C1 amended: the homography stage performs no degeneracy check at all —
even when the inlier count is below 4 or the matrix is singular, it returns
the solver matrix together with the (log-only) inlier count and never fails
with `DegenerateHomography`. -/
theorem homography_stage_never_fails (M : Matrix3) (mask : List ℕ)
    (_hdeg : inlierCount mask < 4 ∨ det3 M = 0) :
    estimateHomographyStep M mask = Except.ok (M, inlierCount mask) := rfl

/-- C1 witness: the amended theorem applied to the all-zero matrix and mask. -/
theorem homography_stage_never_fails_witness :
    estimateHomographyStep zeroMatrix [0, 0, 0, 0] =
      Except.ok (zeroMatrix, inlierCount [0, 0, 0, 0]) :=
  homography_stage_never_fails zeroMatrix [0, 0, 0, 0] (Or.inl (by decide))

/-- C3 counterexample: a homography folding the moving image across the
fixed one yields canvas width `ceil(-5) = -5 ≤ 0`, yet the compositor stage
of the code succeeds instead of failing with `DegenerateCanvas`. -/
theorem composite_stage_counterexample :
    (compositeGeometry 10 10 cornersC3).widthPano ≤ 0 ∧
    compositeStep 10 10 cornersC3 ≠ Except.error StitchError.DegenerateCanvas := by
  refine ⟨?_, fun h => Except.noConfusion h⟩
  simp only [compositeGeometry, cornersC3]
  norm_num [Int.ceil_le]

/-- C3 amended: the compositor performs no dimension check — even when the
computed canvas width or height is non-positive it succeeds with the computed
geometry, and no `DegenerateCanvas` failure exists in the code. -/
theorem composite_stage_never_fails (w_dst h_dst : ℤ) (c : Corners)
    (_hdeg : (compositeGeometry w_dst h_dst c).widthPano ≤ 0 ∨
      (compositeGeometry w_dst h_dst c).heightPano ≤ 0) :
    compositeStep w_dst h_dst c = Except.ok (compositeGeometry w_dst h_dst c) := rfl

/-- C3 witness: the amended theorem applied to the folded corner set. -/
theorem composite_stage_never_fails_witness :
    compositeStep 10 10 cornersC3 = Except.ok (compositeGeometry 10 10 cornersC3) :=
  composite_stage_never_fails 10 10 cornersC3
    (Or.inl (by simp only [compositeGeometry, cornersC3]; norm_num [Int.ceil_le]))

/-- C8: whenever the derived crop window has non-positive width or height,
the crop stage returns the uncropped panorama unchanged and signals no
error. -/
theorem crop_fallback_on_degenerate_window (p : Img) (h_dst : ℤ) (c : Corners)
    (hdeg : (cropWindow p.cols p.rows h_dst c).xEnd -
        (cropWindow p.cols p.rows h_dst c).xStart ≤ 0 ∨
      (cropWindow p.cols p.rows h_dst c).yEnd -
        (cropWindow p.cols p.rows h_dst c).yStart ≤ 0) :
    cropPanorama p h_dst c = p := by
  simp only [cropPanorama]
  rw [if_pos hdeg]

/-- C8 witness: a corner set whose window has width `-30 - 30 ≤ 0`, on which
the crop returns its input. -/
theorem crop_fallback_witness :
    cropPanorama imgC8 10 cornersC8 = imgC8 :=
  crop_fallback_on_degenerate_window imgC8 10 cornersC8
    (Or.inl (by
      simp only [cropWindow, cornersC8, minX4, minY4, imgC8]
      norm_num [Int.ceil_le]))

/-- Expansion of the crop-window left boundary (definitional). -/
theorem cropWindow_xStart_eq (cols rows h_dst : ℤ) (c : Corners) :
    (cropWindow cols rows h_dst c).xStart =
      max 0 (if ⌊minX4 c⌋ < 0
        then max (if c.c0.x < 0 then max 0 ⌊|c.c1.x - c.c0.x|⌋ else 0) (-⌊minX4 c⌋)
        else if c.c0.x < 0 then max 0 ⌊|c.c1.x - c.c0.x|⌋ else 0) := rfl

/-- Expansion of the crop-window right boundary (definitional). -/
theorem cropWindow_xEnd_eq (cols rows h_dst : ℤ) (c : Corners) :
    (cropWindow cols rows h_dst c).xEnd =
      min cols (if c.c0.x < 0 then cols else min cols ⌈min c.c2.x c.c3.x⌉) := rfl

/-- Helper: the corner minimum is bounded by the top-left x coordinate. -/
theorem minX4_le_c0x (c : Corners) : minX4 c ≤ c.c0.x :=
  le_trans (min_le_left _ _) (min_le_left _ _)

/-- Corner set for the crop-trim counterexample: a left-extension whose
transformed top-left and bottom-left corners share x = -20 while the
top-right corner sits at x = 60. -/
def cornersC2 : Corners := { c0 := ⟨-20, 0⟩, c1 := ⟨-20, 50⟩, c2 := ⟨60, 50⟩, c3 := ⟨60, 0⟩ }

/-- C2 counterexample: on a left-extension stitch the code trims the left
edge to 20 (driven by the bottom-left minus top-left gap, here 0, plus the
negative-min-x adjustment), not to the absolute width between the top-right
and top-left corner x, which is 80 at this input. -/
theorem crop_side_trim_counterexample :
    cornersC2.c0.x < 0 ∧
    (cropWindow 100 50 50 cornersC2).xStart = 20 ∧
    ((cropWindow 100 50 50 cornersC2).xStart : ℚ) ≠ |cornersC2.c3.x - cornersC2.c0.x| := by
  have hx : (cropWindow 100 50 50 cornersC2).xStart = 20 := by
    simp only [cropWindow, cornersC2, minX4, minY4]
    norm_num
  refine ⟨by norm_num [cornersC2], hx, ?_⟩
  rw [hx]
  norm_num [cornersC2]

/-- C2 amended: on a left-extension stitch (transformed top-left x negative)
the crop trims the left edge to the floored absolute gap between the
bottom-left and top-left corner x, clamped at 0 and further raised by the
negative-min-x adjustment, while the right edge stays at the panorama width;
on a right-extension stitch the left edge is 0 (or the negative-min-x raise)
and the right edge is trimmed to
`min(pano width, ceil(min(bottom-right x, top-right x)))`. -/
theorem crop_side_trim (cols rows h_dst : ℤ) (c : Corners) :
    (c.c0.x < 0 →
      (cropWindow cols rows h_dst c).xStart =
        max (max 0 ⌊|c.c1.x - c.c0.x|⌋) (-⌊minX4 c⌋) ∧
      (cropWindow cols rows h_dst c).xEnd = cols) ∧
    (0 ≤ c.c0.x →
      (cropWindow cols rows h_dst c).xStart =
        (if ⌊minX4 c⌋ < 0 then -⌊minX4 c⌋ else 0) ∧
      (cropWindow cols rows h_dst c).xEnd = min cols ⌈min c.c2.x c.c3.x⌉) := by
  constructor
  · intro h0
    have hmx : ⌊minX4 c⌋ < 0 := by
      have h2 : minX4 c < 0 := lt_of_le_of_lt (minX4_le_c0x c) h0
      exact Int.floor_lt.mpr (by exact_mod_cast h2)
    rw [cropWindow_xStart_eq, cropWindow_xEnd_eq, if_pos h0, if_pos hmx, if_pos h0]
    constructor <;> omega
  · intro h0
    have h0n : ¬ c.c0.x < 0 := not_lt.mpr h0
    rw [cropWindow_xStart_eq, cropWindow_xEnd_eq, if_neg h0n]
    by_cases hmx : ⌊minX4 c⌋ < 0
    · rw [if_pos hmx, if_neg h0n]
      constructor <;> omega
    · rw [if_neg hmx, if_neg h0n]
      constructor <;> omega

/-- C2 witness: the amended theorem applied to the counterexample corners,
left-extension branch. -/
theorem crop_side_trim_witness :
    (cropWindow 100 50 50 cornersC2).xStart =
      max (max 0 ⌊|cornersC2.c1.x - cornersC2.c0.x|⌋) (-⌊minX4 cornersC2⌋) :=
  ((crop_side_trim 100 50 50 cornersC2).1 (by norm_num [cornersC2])).1

/-- Corner set for the min-x adjustment witness: top-left at x = -20 with a
bottom-left gap of 10. -/
def cornersC10 : Corners := { c0 := ⟨-20, 0⟩, c1 := ⟨-10, 50⟩, c2 := ⟨60, 50⟩, c3 := ⟨60, 0⟩ }

/-- C10: whenever the floored corner minimum `min_x` is negative, the final
left crop boundary is at least `-min_x` and also at least the boundary the
side-classification rule alone dictates, in both the left-extension and the
right-extension case. -/
theorem crop_minx_adjustment (cols rows h_dst : ℤ) (c : Corners)
    (hneg : ⌊minX4 c⌋ < 0) :
    -⌊minX4 c⌋ ≤ (cropWindow cols rows h_dst c).xStart ∧
    (if c.c0.x < 0 then max 0 ⌊|c.c1.x - c.c0.x|⌋ else 0) ≤
      (cropWindow cols rows h_dst c).xStart := by
  rw [cropWindow_xStart_eq, if_pos hneg]
  by_cases h0 : c.c0.x < 0
  · rw [if_pos h0]
    constructor <;> omega
  · rw [if_neg h0]
    constructor <;> omega

/-- C10 witness: the adjustment theorem applied to a concrete left-extension
corner set with `min_x = -20`. -/
theorem crop_minx_adjustment_witness :
    -⌊minX4 cornersC10⌋ ≤ (cropWindow 100 50 50 cornersC10).xStart :=
  (crop_minx_adjustment 100 50 50 cornersC10
    (by norm_num [cornersC10, minX4])).1

/-- Helper: the ratio-test loop produces exactly the survivors of the rule
stated in the words of the specification. -/
theorem goodMatches_eq_ratioSurvivors (pairs : List (List DMatch)) :
    goodMatches pairs = ratioSurvivors pairs := by
  induction pairs with
  | nil => rfl
  | cons pair rest ih =>
    cases pair with
    | nil => simpa [goodMatches, ratioSurvivors, List.filterMap_cons] using ih
    | cons m t =>
      cases t with
      | nil => simpa [goodMatches, ratioSurvivors, List.filterMap_cons] using ih
      | cons n t2 =>
        by_cases h : m.distance < 3 / 4 * n.distance <;>
          simpa [goodMatches, ratioSurvivors, List.filterMap_cons, h] using ih

/-- C6: a match survives the loop exactly when, among its two nearest
candidates, `distance(best) < 0.75 * distance(second best)`, and the match
stage fails with `InsufficientMatches` exactly when fewer than 4 matches
survive the ratio test. -/
theorem ratio_test_rule (pairs : List (List DMatch)) :
    goodMatches pairs = ratioSurvivors pairs ∧
    (matchStage pairs = Except.error StitchError.InsufficientMatches ↔
      (ratioSurvivors pairs).length < 4) := by
  refine ⟨goodMatches_eq_ratioSurvivors pairs, ?_⟩
  unfold matchStage
  rw [goodMatches_eq_ratioSurvivors pairs]
  by_cases h : (ratioSurvivors pairs).length < 4
  · simp [h]
  · simp [h]

/-- C6 witness: with no k-nearest groups at all, no match survives and the
stage fails with `InsufficientMatches`. -/
theorem ratio_test_rule_witness :
    matchStage [] = Except.error StitchError.InsufficientMatches :=
  (ratio_test_rule []).2.mpr (by decide)

/-- Expansion of the canvas width (definitional). -/
theorem compositeGeometry_widthPano_eq (w_dst h_dst : ℤ) (c : Corners) :
    (compositeGeometry w_dst h_dst c).widthPano =
      (if c.c0.x < 0 then ⌈(w_dst : ℚ) + -min (minX4 c) (min 0 (w_dst : ℚ))⌉
        else ⌈c.c3.x⌉) := rfl

/-- Expansion of the fixed-image x offset (definitional). -/
theorem compositeGeometry_dstX_eq (w_dst h_dst : ℤ) (c : Corners) :
    (compositeGeometry w_dst h_dst c).dstX =
      (if c.c0.x < 0 then round (-min (minX4 c) (min 0 (w_dst : ℚ))) else 0) := rfl

/-- C4: the composite canvas geometry: height is `ceil(maxY - minY)` and the
fixed y offset is `round(ty)` over the union of transformed moving corners
and fixed corners; when the transformed top-left x is negative the pair is
left-extension with width `ceil(fixedWidth + tx)` and fixed x offset
`round(tx)`; otherwise right-extension with width `ceil(topRight.x)` and
fixed x offset 0, where `tx = -minX` and `ty = -minY` over that union. -/
theorem composite_geometry_formulas (w_dst h_dst : ℤ) (c : Corners) :
    (compositeGeometry w_dst h_dst c).heightPano =
      ⌈max (maxY4 c) (max 0 (h_dst : ℚ)) - min (minY4 c) (min 0 (h_dst : ℚ))⌉ ∧
    (compositeGeometry w_dst h_dst c).dstY =
      round (-min (minY4 c) (min 0 (h_dst : ℚ))) ∧
    (c.c0.x < 0 →
      (compositeGeometry w_dst h_dst c).widthPano =
        ⌈(w_dst : ℚ) + -min (minX4 c) (min 0 (w_dst : ℚ))⌉ ∧
      (compositeGeometry w_dst h_dst c).dstX =
        round (-min (minX4 c) (min 0 (w_dst : ℚ)))) ∧
    (0 ≤ c.c0.x →
      (compositeGeometry w_dst h_dst c).widthPano = ⌈c.c3.x⌉ ∧
      (compositeGeometry w_dst h_dst c).dstX = 0) := by
  refine ⟨rfl, rfl, fun h0 => ?_, fun h0 => ?_⟩
  · rw [compositeGeometry_widthPano_eq, compositeGeometry_dstX_eq, if_pos h0, if_pos h0]
    exact ⟨rfl, rfl⟩
  · have h0n : ¬ c.c0.x < 0 := not_lt.mpr h0
    rw [compositeGeometry_widthPano_eq, compositeGeometry_dstX_eq, if_neg h0n, if_neg h0n]
    exact ⟨rfl, rfl⟩

/-- Corner set of a plain right-extension stitch, for the geometry witness. -/
def cornersC4 : Corners := { c0 := ⟨5, 0⟩, c1 := ⟨5, 40⟩, c2 := ⟨85, 40⟩, c3 := ⟨85, 0⟩ }

/-- C4 witness: the geometry formulas applied to a right-extension stitch. -/
theorem composite_geometry_formulas_witness :
    (compositeGeometry 80 50 cornersC4).widthPano = ⌈cornersC4.c3.x⌉ ∧
    (compositeGeometry 80 50 cornersC4).dstX = 0 :=
  (composite_geometry_formulas 80 50 cornersC4).2.2.2 (by norm_num [cornersC4])

/-- C5 counterexample: at `dDst + dSrc` exactly 0.01 the code takes the
50/50 average (its weighted path needs strictly more than 0.01), while the
claim as stated prescribes the weighted round; with `dDst = 0.01`,
`dSrc = 0`, fixed channel 100 and moving channel 0 the code writes 50 and
the claim demands 100. -/
theorem blend_threshold_counterexample :
    blendPixel true true true 255 (1 / 100) 0 (fun _ => 100) (fun _ => 0) 0 ≠
      blendOverlapClaim (1 / 100) 0 (fun _ => 100) (fun _ => 0) 0 := by
  have h1 : blendPixel true true true 255 (1 / 100) 0 (fun _ => 100) (fun _ => 0) 0 = 50 := by
    simp only [blendPixel]
    norm_num [round_eq]
  have h2 : blendOverlapClaim (1 / 100) 0 (fun _ => 100) (fun _ => 0) 0 = 100 := by
    simp only [blendOverlapClaim]
    norm_num [round_eq]
  rw [h1, h2]
  decide

/-- C5 amended: for a pixel of the eroded overlap with non-negative distance
weights and byte-range colours, the output is the per-channel round of the
distance-weighted average when `dDst + dSrc > 0.01`, and the rounded 50/50
average otherwise (so the fallback also covers the boundary value 0.01);
the uint8 store changes nothing in this range. -/
theorem blend_overlap_rule (hD hS : Bool) (srcAlpha : ℕ) (dDst dSrc : ℚ)
    (dstPix srcPix : Fin 3 → ℕ) (ch : Fin 3)
    (hd0 : 0 ≤ dDst) (hs0 : 0 ≤ dSrc)
    (hdp : dstPix ch ≤ 255) (hsp : srcPix ch ≤ 255) :
    blendPixel true hD hS srcAlpha dDst dSrc dstPix srcPix ch =
      if dDst + dSrc > 1 / 100 then
        round ((dstPix ch : ℚ) * (dDst / (dDst + dSrc)) +
          (srcPix ch : ℚ) * (dSrc / (dDst + dSrc)))
      else round (((dstPix ch : ℚ) + (srcPix ch : ℚ)) / 2) := by
  have hdq : ((dstPix ch : ℚ)) ≤ 255 := by exact_mod_cast hdp
  have hsq : ((srcPix ch : ℚ)) ≤ 255 := by exact_mod_cast hsp
  have hdq0 : (0 : ℚ) ≤ (dstPix ch : ℚ) := Nat.cast_nonneg _
  have hsq0 : (0 : ℚ) ≤ (srcPix ch : ℚ) := Nat.cast_nonneg _
  simp only [blendPixel, if_true]
  split_ifs with htot
  · have ht0 : (0 : ℚ) < dDst + dSrc := lt_trans (by norm_num) htot
    have hw1 : dDst / (dDst + dSrc) + dSrc / (dDst + dSrc) = 1 := by
      rw [div_add_div_same, div_self ht0.ne']
    have hwd0 : 0 ≤ dDst / (dDst + dSrc) := div_nonneg hd0 ht0.le
    have hws0 : 0 ≤ dSrc / (dDst + dSrc) := div_nonneg hs0 ht0.le
    have hv0 : 0 ≤ (dstPix ch : ℚ) * (dDst / (dDst + dSrc)) +
        (srcPix ch : ℚ) * (dSrc / (dDst + dSrc)) :=
      add_nonneg (mul_nonneg hdq0 hwd0) (mul_nonneg hsq0 hws0)
    have hv255 : (dstPix ch : ℚ) * (dDst / (dDst + dSrc)) +
        (srcPix ch : ℚ) * (dSrc / (dDst + dSrc)) ≤ 255 := by
      have hstep : (dstPix ch : ℚ) * (dDst / (dDst + dSrc)) +
          (srcPix ch : ℚ) * (dSrc / (dDst + dSrc)) ≤
          255 * (dDst / (dDst + dSrc)) + 255 * (dSrc / (dDst + dSrc)) :=
        add_le_add (mul_le_mul_of_nonneg_right hdq hwd0)
          (mul_le_mul_of_nonneg_right hsq hws0)
      have hsum : 255 * (dDst / (dDst + dSrc)) + 255 * (dSrc / (dDst + dSrc)) =
          (255 : ℚ) := by rw [← mul_add, hw1, mul_one]
      linarith
    have hr0 : 0 ≤ round ((dstPix ch : ℚ) * (dDst / (dDst + dSrc)) +
        (srcPix ch : ℚ) * (dSrc / (dDst + dSrc))) := by
      rw [round_eq]
      exact Int.le_floor.mpr (by push_cast; linarith)
    have hr1 : round ((dstPix ch : ℚ) * (dDst / (dDst + dSrc)) +
        (srcPix ch : ℚ) * (dSrc / (dDst + dSrc))) < 256 := by
      rw [round_eq]
      exact Int.floor_lt.mpr (by push_cast; linarith)
    exact Int.emod_eq_of_lt hr0 hr1
  · have hv0 : (0 : ℚ) ≤ ((dstPix ch : ℚ) + (srcPix ch : ℚ)) / 2 := by linarith
    have hv255 : ((dstPix ch : ℚ) + (srcPix ch : ℚ)) / 2 ≤ 255 := by linarith
    have hr0 : 0 ≤ round (((dstPix ch : ℚ) + (srcPix ch : ℚ)) / 2) := by
      rw [round_eq]
      exact Int.le_floor.mpr (by push_cast; linarith)
    have hr1 : round (((dstPix ch : ℚ) + (srcPix ch : ℚ)) / 2) < 256 := by
      rw [round_eq]
      exact Int.floor_lt.mpr (by push_cast; linarith)
    exact Int.emod_eq_of_lt hr0 hr1

/-- C5 witness: the overlap rule applied to a concrete in-overlap pixel with
weights 2 and 0 and channels 100 and 0. -/
theorem blend_overlap_rule_witness :
    blendPixel true true false 0 2 0 (fun _ => 100) (fun _ => 0) 0 =
      (if (2 : ℚ) + 0 > 1 / 100 then
        round ((((fun _ => 100 : Fin 3 → ℕ) 0 : ℕ) : ℚ) * (2 / (2 + 0)) +
          (((fun _ => 0 : Fin 3 → ℕ) 0 : ℕ) : ℚ) * (0 / (2 + 0)))
      else round (((((fun _ => 100 : Fin 3 → ℕ) 0 : ℕ) : ℚ) +
        (((fun _ => 0 : Fin 3 → ℕ) 0 : ℕ) : ℚ)) / 2)) :=
  blend_overlap_rule true false 0 2 0 (fun _ => 100) (fun _ => 0) 0
    (by norm_num) (by norm_num) (by norm_num) (by norm_num)

/-- Helper: the crop returns its input unchanged when the derived window has
non-positive width or height. -/
theorem cropPanorama_of_deg (p : Img) (h_dst : ℤ) (c : Corners)
    (hdeg : (cropWindow p.cols p.rows h_dst c).xEnd -
        (cropWindow p.cols p.rows h_dst c).xStart ≤ 0 ∨
      (cropWindow p.cols p.rows h_dst c).yEnd -
        (cropWindow p.cols p.rows h_dst c).yStart ≤ 0) :
    cropPanorama p h_dst c = p := by
  simp only [cropPanorama]
  rw [if_pos hdeg]

/-- Helper: the crop with a positive window extracts the sub-image. -/
theorem cropPanorama_of_pos (p : Img) (h_dst : ℤ) (c : Corners)
    (hpos : ¬ ((cropWindow p.cols p.rows h_dst c).xEnd -
        (cropWindow p.cols p.rows h_dst c).xStart ≤ 0 ∨
      (cropWindow p.cols p.rows h_dst c).yEnd -
        (cropWindow p.cols p.rows h_dst c).yStart ≤ 0)) :
    cropPanorama p h_dst c =
      { cols := (cropWindow p.cols p.rows h_dst c).xEnd -
          (cropWindow p.cols p.rows h_dst c).xStart
        rows := (cropWindow p.cols p.rows h_dst c).yEnd -
          (cropWindow p.cols p.rows h_dst c).yStart
        pix := fun x y => p.pix (x + (cropWindow p.cols p.rows h_dst c).xStart)
          (y + (cropWindow p.cols p.rows h_dst c).yStart) } := by
  simp only [cropPanorama]
  rw [if_neg hpos]

/-- Panorama of a right-extension composite whose moving image reaches 10
pixels above the fixed image, so the crop has a positive vertical offset. -/
def imgC7 : Img := { cols := 85, rows := 60, pix := fun _ _ => 0 }

/-- Transformed corners matching `imgC7`: the moving image spans y in
[-10, 40] while the fixed image has height 50. -/
def cornersC7 : Corners := { c0 := ⟨5, -10⟩, c1 := ⟨5, 40⟩, c2 := ⟨85, 40⟩, c3 := ⟨85, -10⟩ }

/-- C7 counterexample: cropping this composited panorama once gives a
50-row image, cropping the result again with the same parameters trims a
further 10 rows off the top (the vertical offset is re-applied), so crop is
not idempotent. -/
theorem crop_not_idempotent_counterexample :
    cropPanorama (cropPanorama imgC7 50 cornersC7) 50 cornersC7 ≠
      cropPanorama imgC7 50 cornersC7 := by
  have hwin1 : cropWindow 85 60 50 cornersC7 = ⟨0, 85, 10, 60⟩ := by
    simp only [cropWindow, cornersC7, minX4, minY4]
    norm_num
  have h1 : cropPanorama imgC7 50 cornersC7 =
      { cols := 85, rows := 50, pix := fun x y => imgC7.pix (x + 0) (y + 10) } := by
    simp only [cropPanorama, imgC7]
    rw [hwin1]
    norm_num
  have hwin2 : cropWindow 85 50 50 cornersC7 = ⟨0, 85, 10, 50⟩ := by
    simp only [cropWindow, cornersC7, minX4, minY4]
    norm_num
  have h2 : (cropPanorama (cropPanorama imgC7 50 cornersC7) 50 cornersC7).rows = 40 := by
    rw [h1]
    simp only [cropPanorama]
    rw [hwin2]
    norm_num
  intro heq
  rw [heq, h1] at h2
  exact absurd h2 (by norm_num)

/-- C7 amended: crop is idempotent for corner sets in the non-negative
quadrant (corner minima `minX >= 0` and `minY >= 0`, so no vertical offset and
no left trim is re-applied); in general a second crop with the same
parameters trims further, as the counterexample shows. -/
theorem crop_idempotent_nonneg (p : Img) (h_dst : ℤ) (c : Corners)
    (hx : 0 ≤ minX4 c) (hy : 0 ≤ minY4 c) :
    cropPanorama (cropPanorama p h_dst c) h_dst c = cropPanorama p h_dst c := by
  have hfx : (0 : ℤ) ≤ ⌊minX4 c⌋ := Int.le_floor.mpr (by push_cast; exact hx)
  have hfy : (0 : ℤ) ≤ ⌊minY4 c⌋ := Int.le_floor.mpr (by push_cast; exact hy)
  have h0 : ¬ c.c0.x < 0 := not_lt.mpr (le_trans hx (minX4_le_c0x c))
  have hxs : ∀ cols rows : ℤ, (cropWindow cols rows h_dst c).xStart = 0 := by
    intro cols rows
    rw [cropWindow_xStart_eq, if_neg (not_lt.mpr hfx), if_neg h0]
    omega
  have hxe : ∀ cols rows : ℤ, (cropWindow cols rows h_dst c).xEnd =
      min cols ⌈min c.c2.x c.c3.x⌉ := by
    intro cols rows
    rw [cropWindow_xEnd_eq, if_neg h0]
    omega
  have hys : ∀ cols rows : ℤ, (cropWindow cols rows h_dst c).yStart = 0 := by
    intro cols rows
    show max 0 (-⌊minY4 c⌋) = 0
    omega
  have hye : ∀ cols rows : ℤ, (cropWindow cols rows h_dst c).yEnd =
      min rows (min (-⌊minY4 c⌋ + h_dst) rows) := fun _ _ => rfl
  have hid : ∀ q : Img, q.cols ≤ ⌈min c.c2.x c.c3.x⌉ →
      q.rows ≤ -⌊minY4 c⌋ + h_dst → cropPanorama q h_dst c = q := by
    intro q hqc hqr
    have hwxe : (cropWindow q.cols q.rows h_dst c).xEnd = q.cols := by
      rw [hxe]
      omega
    have hwye : (cropWindow q.cols q.rows h_dst c).yEnd = q.rows := by
      rw [hye]
      omega
    by_cases hq : q.cols ≤ 0 ∨ q.rows ≤ 0
    · apply cropPanorama_of_deg
      rw [hxs, hwxe, hys, hwye]
      omega
    · have hq2 : ¬ ((cropWindow q.cols q.rows h_dst c).xEnd -
          (cropWindow q.cols q.rows h_dst c).xStart ≤ 0 ∨
        (cropWindow q.cols q.rows h_dst c).yEnd -
          (cropWindow q.cols q.rows h_dst c).yStart ≤ 0) := by
        rw [hxs, hwxe, hys, hwye]
        omega
      rw [cropPanorama_of_pos q h_dst c hq2]
      rw [hxs, hwxe, hys, hwye]
      refine Img.ext ?_ ?_ ?_
      · show q.cols - 0 = q.cols
        omega
      · show q.rows - 0 = q.rows
        omega
      · funext x y
        show q.pix (x + 0) (y + 0) = q.pix x y
        simp only [add_zero]
  by_cases hdeg : min p.cols ⌈min c.c2.x c.c3.x⌉ ≤ 0 ∨
      min p.rows (min (-⌊minY4 c⌋ + h_dst) p.rows) ≤ 0
  · have hd1 : cropPanorama p h_dst c = p := by
      apply cropPanorama_of_deg
      rw [hxs, hxe, hys, hye]
      omega
    rw [hd1]
    exact hd1
  · have hpos : ¬ ((cropWindow p.cols p.rows h_dst c).xEnd -
        (cropWindow p.cols p.rows h_dst c).xStart ≤ 0 ∨
      (cropWindow p.cols p.rows h_dst c).yEnd -
        (cropWindow p.cols p.rows h_dst c).yStart ≤ 0) := by
      rw [hxs, hxe, hys, hye]
      omega
    have hp1 : cropPanorama p h_dst c =
        { cols := min p.cols ⌈min c.c2.x c.c3.x⌉
          rows := min p.rows (min (-⌊minY4 c⌋ + h_dst) p.rows)
          pix := fun x y => p.pix (x + 0) (y + 0) } := by
      rw [cropPanorama_of_pos p h_dst c hpos]
      rw [hxs, hxe, hys, hye]
      simp only [sub_zero]
    rw [hp1]
    refine hid _ ?_ ?_
    · show min p.cols ⌈min c.c2.x c.c3.x⌉ ≤ ⌈min c.c2.x c.c3.x⌉
      omega
    · show min p.rows (min (-⌊minY4 c⌋ + h_dst) p.rows) ≤ -⌊minY4 c⌋ + h_dst
      omega

/-- Corners in the non-negative quadrant for the idempotence witness. -/
def cornersC7W : Corners := { c0 := ⟨5, 0⟩, c1 := ⟨5, 50⟩, c2 := ⟨85, 50⟩, c3 := ⟨85, 0⟩ }

/-- Panorama input for the idempotence witness. -/
def imgC7W : Img := { cols := 85, rows := 50, pix := fun _ _ => 3 }

/-- C7 witness: the amended idempotence applied to a concrete panorama whose
corners lie in the non-negative quadrant. -/
theorem crop_idempotent_nonneg_witness :
    cropPanorama (cropPanorama imgC7W 50 cornersC7W) 50 cornersC7W =
      cropPanorama imgC7W 50 cornersC7W :=
  crop_idempotent_nonneg imgC7W 50 cornersC7W
    (by norm_num [minX4, cornersC7W]) (by norm_num [minY4, cornersC7W])

/-- C9: feeding fewer than 2 images to the driver yields `TooFewImages`
before any pairwise stitch runs, with no partial panorama output. -/
theorem stitchAll_too_few_images (stitchPair : Img → Img → Except StitchError Img)
    (imgs : List Img) (hlen : imgs.length < 2) :
    stitchAll stitchPair imgs = Except.error StitchError.TooFewImages := by
  simp only [stitchAll]
  rw [if_pos hlen]

/-- C9 witness: the empty image list is refused. -/
theorem stitchAll_too_few_images_witness :
    stitchAll (fun a _ => Except.ok a) [] = Except.error StitchError.TooFewImages :=
  stitchAll_too_few_images (fun a _ => Except.ok a) [] (by decide)

end Stitch
